import Mathlib

/-!
Shallow embedding of the plotchecker library (base.py, lineplot.py,
barplot.py, scatterplot.py).  Numeric values are modelled as rationals,
matplotlib colors as an inductive type of the shapes the code inspects,
and fallible Python code (raising ValueError / AssertionError /
InvalidPlotError) as Except-valued functions or explicit outcome types.
-/

namespace Plotchecker

/-- Canonical RGB triple (the return shape of `PlotChecker._color2rgb`). -/
abbrev Rgb := ℚ × ℚ × ℚ

/-- A Python value passed as a "color": a string (named color or hex code),
an iterable of numbers (modelling lists/tuples/arrays of length 3, 4, or
anything else), or a non-iterable scalar. -/
inductive PyColor where
  | str (s : String)
  | seq (xs : List ℚ)
  | num (q : ℚ)
deriving DecidableEq, Repr

/-- Model of matplotlib's named-color table (`_named_colors` in base.py,
built from `matplotlib.colors.ColorConverter.colors` and `cnames`); a
representative subset of entries of the external table. -/
def namedColors : List (String × Rgb) :=
  [ ("b", (0, 0, 1)), ("g", (0, 1/2, 0)), ("r", (1, 0, 0)),
    ("c", (0, 3/4, 3/4)), ("m", (3/4, 0, 3/4)), ("y", (3/4, 3/4, 0)),
    ("k", (0, 0, 0)), ("w", (1, 1, 1)),
    ("blue", (0, 0, 1)), ("green", (0, 128/255, 0)), ("red", (1, 0, 0)),
    ("black", (0, 0, 0)), ("white", (1, 1, 1)) ]

/-- Value of a single hexadecimal digit, `none` for non-hex characters. -/
def hexVal? (c : Char) : Option ℕ :=
  if '0' ≤ c ∧ c ≤ '9' then some (c.toNat - 48)
  else if 'a' ≤ c ∧ c ≤ 'f' then some (c.toNat - 87)
  else if 'A' ≤ c ∧ c ≤ 'F' then some (c.toNat - 55)
  else none

/-- Model of `matplotlib.colors.hex2color`: accepts exactly strings of the
form "#RRGGBB" (six hex digits) and returns each channel divided by 255;
anything else raises ValueError. -/
def hex2color (s : String) : Except String Rgb :=
  match s.data with
  | ['#', a1, a2, b1, b2, c1, c2] =>
    match hexVal? a1, hexVal? a2, hexVal? b1, hexVal? b2, hexVal? c1, hexVal? c2 with
    | some r1, some r2, some g1, some g2, some v1, some v2 =>
        .ok (((r1 * 16 + r2 : ℕ) : ℚ) / 255,
             ((g1 * 16 + g2 : ℕ) : ℚ) / 255,
             ((v1 * 16 + v2 : ℕ) : ℚ) / 255)
    | _, _, _, _, _, _ => .error "Invalid hex color"
  | _ => .error "Invalid hex color"

/-- Model of `PlotChecker._color2rgb` (base.py lines 40-66): a string is looked up
in the named-color table, falling back to hex decoding; an iterable of
length 3 is returned as a tuple of its values; an iterable of length 4
yields its first three values; anything else raises ValueError. -/
def color2rgb (color : PyColor) : Except String Rgb :=
  match color with
  | .str s =>
    match namedColors.lookup s with
    | some rgb => .ok rgb
    | none => hex2color s
  | .seq xs =>
    match xs with
    | [r, g, b] => .ok (r, g, b)
    | [r, g, b, _] => .ok (r, g, b)
    | _ => .error "Invalid color"
  | .num _ => .error "Invalid color"

/-- Model of `PlotChecker._color2alpha` (base.py lines 68-92): strings and length-3
iterables give 1.0, a length-4 iterable gives its fourth entry, anything
else raises ValueError. -/
def color2alpha (color : PyColor) : Except String ℚ :=
  match color with
  | .str _ => .ok 1
  | .seq xs =>
    match xs with
    | [_, _, _] => .ok 1
    | [_, _, _, a] => .ok a
    | _ => .error "Invalid color"
  | .num _ => .error "Invalid color"

/-- Model of `PlotChecker._parse_marker` (base.py lines 94-112): `None` and the
string "None" become the empty string; everything else is unchanged.
A Python marker argument is `none` (Python None) or `some s`. -/
def parseMarker (marker : Option String) : String :=
  match marker with
  | none => ""
  | some m => if m = "None" then "" else m

/-- Model of `PlotChecker._tile_or_trim` (base.py lines 114-135): if `x` is longer
than `y`, tile `y` (concatenate `ceil(len x / len y)` copies); then if the
(possibly tiled) `y` is longer than `x`, trim it to the length of `x`.
Tiling an empty `y` against a non-empty `x` divides by zero, which raises
in Python and is an error here. -/
def tileOrTrim {α : Type} (x y : List α) : Except String (List α) :=
  if x.length > y.length then
    if y.length = 0 then Except.error "ZeroDivisionError"
    else
      let y1 := (List.replicate ((x.length + y.length - 1) / y.length) y).flatten
      if x.length < y1.length then Except.ok (y1.take x.length) else Except.ok y1
  else
    if x.length < y.length then Except.ok (y.take x.length) else Except.ok y

/-- A matplotlib `Line2D` element, restricted to the fields the checkers
read: its data points, color, explicit alpha (None when never set), marker
and connecting line style. -/
structure Line where
  xyData : List (ℚ × ℚ)
  color : PyColor
  alpha : Option ℚ
  marker : Option String
  linestyle : String
deriving DecidableEq, Repr

/-- State of a `LinePlotChecker`: the lines of the axis (in draw order) and the
active permutation `_perm`. -/
structure LinePlotChecker where
  lines : List Line
  perm : List ℕ
deriving DecidableEq, Repr

/-- Model of `LinePlotChecker.__init__` (lineplot.py lines 17-25): record the lines,
set `_perm` to the identity, and raise InvalidPlotError when no line was
plotted. -/
def mkLinePlotChecker (lines : List Line) : Except String LinePlotChecker :=
  if lines.length = 0 then .error "No data found"
  else .ok ⟨lines, List.range lines.length⟩

/-- Outcome of `LinePlotChecker._assert_equal`: silent return, the length
mismatch AssertionError (carrying the attribute name and the actual and
expected lengths), or the per-line AssertionError (carrying the attribute
name, the line index, and the expected and actual values there). -/
inductive AssertOutcome (α : Type) where
  | pass
  | lengthMismatch (attr : String) (actualLen expectedLen : ℕ)
  | valueMismatch (attr : String) (lineIdx : ℕ) (expectedVal actualVal : Option α)
deriving DecidableEq, Repr

/-- Model of `LinePlotChecker._assert_equal` (lineplot.py lines 27-75) with the
default comparison function: first compare lengths, then walk the indices
in order comparing `actual[i]` with `expected[perm[i]]`, failing at the
first mismatch. -/
def lineAssertEqual {α : Type} [DecidableEq α] (attr : String)
    (expected actual : List α) (perm : List ℕ) : AssertOutcome α :=
  if expected.length ≠ actual.length then
    .lengthMismatch attr actual.length expected.length
  else
    match (List.range expected.length).find?
        (fun i => decide (actual[i]? ≠ perm[i]?.bind (fun p => expected[p]?))) with
    | some i => .valueMismatch attr i (perm[i]?.bind (fun p => expected[p]?)) actual[i]?
    | none => .pass

/-- Fuel-indexed enumeration of the permutations of a list, selecting each
element in list order as the head and recursing on the remainder: for a
sorted list of distinct elements this is exactly the lexicographic order
in which `itertools.permutations` enumerates. -/
def lexPermsFuel : ℕ → List ℕ → List (List ℕ)
  | _, [] => [[]]
  | 0, _ :: _ => []
  | n + 1, x :: xs =>
      (x :: xs).flatMap (fun y => (lexPermsFuel n ((x :: xs).erase y)).map (fun q => y :: q))

/-- Model of `itertools.permutations(np.arange(len(expected)))` when
applied to `xs`: all permutations of `xs`, in lexicographic order when
`xs` is sorted. -/
def lexPerms (xs : List ℕ) : List (List ℕ) :=
  lexPermsFuel xs.length xs

/-- Core of `LinePlotChecker.find_permutation` (lineplot.py lines 149-172),
after the expected values have been normalized and the actual attribute
values fetched: check the lengths, then return the first enumerated
permutation under which `_assert_equal` succeeds, or fail. -/
def findPermutationCore {α : Type} [DecidableEq α] (attr : String)
    (expected actual : List α) : Except String (List ℕ) :=
  if expected.length ≠ actual.length then
    .error "Invalid length for attribute"
  else
    match (lexPerms (List.range expected.length)).find?
        (fun p => decide (lineAssertEqual attr expected actual p = .pass)) with
    | some p => .ok p
    | none => .error "Could not match plotted values to expected values"

/-- Pointwise success criterion of `_assert_equal` under a permutation:
every actual value at index `i` equals the expected value at index
`perm[i]`. -/
def matchesPerm {α : Type} (expected actual : List α) (p : List ℕ) : Prop :=
  ∀ i, i < expected.length → actual[i]? = p[i]?.bind (fun j => expected[j]?)

/-- Model of `LinePlotChecker.colors` (lineplot.py lines 255-258): each line's color
normalized to an RGB triple. -/
def LinePlotChecker.colorsAttr (c : LinePlotChecker) : Except String (List Rgb) :=
  c.lines.mapM (fun l => color2rgb l.color)

/-- Model of `LinePlotChecker.find_permutation` (lineplot.py lines 88-172)
specialized to the key attribute "colors" (one of the three color
attributes, for which the expected values are first normalized through
`_color2rgb`): on success the found permutation is stored as `_perm`. -/
def LinePlotChecker.findPermColors (c : LinePlotChecker) (attrVals : List PyColor) :
    Except String LinePlotChecker :=
  match attrVals.mapM color2rgb with
  | .error e => .error e
  | .ok expected =>
    match c.colorsAttr with
    | .error e => .error e
    | .ok actual =>
      match findPermutationCore "colors" expected actual with
      | .error e => .error e
      | .ok p => .ok { c with perm := p }

/-- Model of `LinePlotChecker.markers` (lineplot.py lines 515-518): each line's
marker, normalized through `_parse_marker`. -/
def LinePlotChecker.markers (c : LinePlotChecker) : List String :=
  c.lines.map (fun l => parseMarker l.marker)

/-- Model of `LinePlotChecker.assert_markers_equal` (lineplot.py lines 520-532):
normalize the expected markers through `_parse_marker`, then compare with
the markers attribute under the active permutation. -/
def LinePlotChecker.assertMarkersEqual (c : LinePlotChecker)
    (markers : List (Option String)) : AssertOutcome String :=
  lineAssertEqual "markers" (markers.map parseMarker) c.markers c.perm

/-- Body of the loop in `LinePlotChecker.alphas` (lineplot.py lines
293-302): the explicit alpha when one is set, else the alpha of the line's
own color. -/
def lineAlpha (l : Line) : Except String ℚ :=
  match l.alpha with
  | none => color2alpha l.color
  | some a => .ok a

/-- Model of `LinePlotChecker.alphas` (lineplot.py lines 293-302). -/
def LinePlotChecker.alphas (c : LinePlotChecker) : Except String (List ℚ) :=
  c.lines.mapM lineAlpha

/-- A matplotlib patch as read by `BarPlotChecker`: x and y position,
width, height, face color and explicit alpha. -/
structure Patch where
  x : ℚ
  y : ℚ
  width : ℚ
  height : ℚ
  facecolor : PyColor
  alpha : Option ℚ
deriving DecidableEq, Repr

/-- Comparison used to model `np.argsort([p.get_x() for p in patches])`:
order patches by their x position. -/
def patchLeX (a b : Patch) : Prop := a.x ≤ b.x

instance : DecidableRel patchLeX := fun a b => inferInstanceAs (Decidable (a.x ≤ b.x))

instance : IsTotal Patch patchLeX := ⟨fun a b => le_total a.x b.x⟩

instance : IsTrans Patch patchLeX := ⟨fun _ _ _ h1 h2 => le_trans h1 h2⟩

/-- State of a `BarPlotChecker`: the patches, already sorted by x position. -/
structure BarPlotChecker where
  patches : List Patch
deriving DecidableEq, Repr

/-- Model of `BarPlotChecker.__init__` (barplot.py lines 16-23): sort the axis
patches by their x position, then raise InvalidPlotError when there are
none. -/
def mkBarPlotChecker (patches : List Patch) : Except String BarPlotChecker :=
  let sorted := patches.insertionSort patchLeX
  if sorted.length = 0 then .error "no data found"
  else .ok ⟨sorted⟩

/-- Model of `BarPlotChecker.centers` (barplot.py lines 60-63): x position plus half
the width, per patch in sorted order. -/
def BarPlotChecker.centers (c : BarPlotChecker) : List ℚ :=
  c.patches.map (fun p => p.x + p.width / 2)

/-- Body of the loop in `BarPlotChecker.alphas` (barplot.py lines 306-318):
the explicit alpha when one is set, else the alpha of the patch's face
color. -/
def barAlpha (p : Patch) : Except String ℚ :=
  match p.alpha with
  | none => color2alpha p.facecolor
  | some a => .ok a

/-- Model of `BarPlotChecker.alphas` (barplot.py lines 306-318). -/
def BarPlotChecker.alphas (c : BarPlotChecker) : Except String (List ℚ) :=
  c.patches.mapM barAlpha

/-- The per-line validation loop of `ScatterPlotChecker.__init__`
(scatterplot.py lines 26-31): a line with more than one data point and a
line style other than "None" is rejected, then a line whose parsed marker
is empty is rejected. -/
def checkScatterLines : List Line → Except String Unit
  | [] => .ok ()
  | l :: rest =>
    if l.xyData.length > 1 ∧ l.linestyle ≠ "None" then
      .error "This is supposed to be a scatter plot, but it has lines!"
    else if parseMarker l.marker = "" then
      .error "This is supposed to be a scatter plot, but there are no markers!"
    else checkScatterLines rest

/-- A collection element (PathCollection) as read by `ScatterPlotChecker`;
only its offsets matter for the construction-time checks. -/
structure Collection where
  offsets : List (ℚ × ℚ)
deriving DecidableEq, Repr

/-- State of a `ScatterPlotChecker`. -/
structure ScatterPlotChecker where
  lines : List Line
  collections : List Collection
deriving DecidableEq, Repr

/-- Model of `ScatterPlotChecker.__init__` (scatterplot.py lines 15-31): reject an
axis with neither lines nor collections, then validate every line. -/
def mkScatterPlotChecker (lines : List Line) (collections : List Collection) :
    Except String ScatterPlotChecker :=
  if lines.length = 0 ∧ collections.length = 0 then
    .error "No data found"
  else
    match checkScatterLines lines with
    | .error e => .error e
    | .ok _ => .ok ⟨lines, collections⟩

/-! Helper lemmas -/

lemma length_flatten_replicate {α : Type} (y : List α) (n : ℕ) :
    ((List.replicate n y).flatten).length = n * y.length := by
  induction n with
  | zero => simp
  | succ n ih => rw [List.replicate_succ, List.flatten_cons, List.length_append, ih]; ring

lemma getElem?_flatten_replicate {α : Type} (y : List α) :
    ∀ (n i : ℕ), i < n * y.length →
      ((List.replicate n y).flatten)[i]? = y[i % y.length]? := by
  intro n
  induction n with
  | zero => intro i h; omega
  | succ n ih =>
    intro i h
    have hmul : (n + 1) * y.length = n * y.length + y.length := by ring
    rw [List.replicate_succ, List.flatten_cons]
    by_cases hi : i < y.length
    · rw [List.getElem?_append, if_pos hi, Nat.mod_eq_of_lt hi]
    · push_neg at hi
      rw [List.getElem?_append, if_neg (by omega), ih (i - y.length) (by omega)]
      congr 1
      conv_rhs => rw [show i = i - y.length + y.length by omega]
      rw [Nat.add_mod_right]

lemma le_ceil_div_mul (xn yn : ℕ) (h : 0 < yn) : xn ≤ (xn + yn - 1) / yn * yn := by
  have hd := Nat.div_add_mod (xn + yn - 1) yn
  have hm : (xn + yn - 1) % yn < yn := Nat.mod_lt _ h
  have hc : (xn + yn - 1) / yn * yn = yn * ((xn + yn - 1) / yn) := Nat.mul_comm _ _
  omega

lemma mapM_ok_forall2 {α β : Type} (f : α → Except String β) :
    ∀ (l : List α) (bs : List β), l.mapM f = .ok bs →
      List.Forall₂ (fun a b => f a = .ok b) l bs := by
  intro l
  induction l with
  | nil =>
    intro bs h
    rw [List.mapM_nil] at h
    simp [Pure.pure, Except.pure] at h
    simp [← h]
  | cons a rest ih =>
    intro bs h
    rw [List.mapM_cons] at h
    cases ha : f a with
    | error e => rw [ha] at h; simp [Bind.bind, Except.bind] at h
    | ok b =>
      rw [ha] at h
      cases hrest : rest.mapM f with
      | error e =>
        rw [hrest] at h
        simp [Bind.bind, Except.bind, Pure.pure, Except.pure] at h
      | ok brest =>
        rw [hrest] at h
        simp [Bind.bind, Except.bind, Pure.pure, Except.pure] at h
        subst h
        exact List.Forall₂.cons ha (ih brest hrest)

lemma map_eq_of_forall2 {α β : Type} (f : α → β) :
    ∀ (l1 l2 : List α), List.Forall₂ (fun a b => f a = f b) l1 l2 →
      l1.map f = l2.map f := by
  intro l1 l2 h
  induction h with
  | nil => rfl
  | cons hab _ ih => simp [ih, hab]

/-! Claim theorems: color and alpha normalization -/

/-- C2: `_color2rgb` returns a 3-tuple determined by this case analysis: a
string resolves through the named-color table or, failing that, is decoded
as a hex code; a 3-length numeric sequence is returned with its values; a
4-length numeric sequence yields its first three values; any other shape
(wrong-length sequence or non-iterable scalar) fails with an invalid-color
error rather than returning a value. -/
theorem c2_color2rgb_cases :
    (∀ s rgb, namedColors.lookup s = some rgb → color2rgb (.str s) = .ok rgb) ∧
    (∀ s, namedColors.lookup s = none → color2rgb (.str s) = hex2color s) ∧
    (∀ r g b, color2rgb (.seq [r, g, b]) = .ok (r, g, b)) ∧
    (∀ r g b a, color2rgb (.seq [r, g, b, a]) = .ok (r, g, b)) ∧
    (∀ xs, xs.length ≠ 3 → xs.length ≠ 4 → color2rgb (.seq xs) = .error "Invalid color") ∧
    (∀ q, color2rgb (.num q) = .error "Invalid color") := by
  refine ⟨?_, ?_, ?_, ?_, ?_, ?_⟩
  · intro s rgb h; simp [color2rgb, h]
  · intro s h; simp [color2rgb, h]
  · intro r g b; rfl
  · intro r g b a; rfl
  · intro xs h3 h4
    match xs, h3, h4 with
    | [], _, _ => rfl
    | [a], _, _ => rfl
    | [a, b], _, _ => rfl
    | [a, b, c], h3, _ => exact absurd rfl h3
    | [a, b, c, d], _, h4 => exact absurd rfl h4
    | a :: b :: c :: d :: e :: rest, _, _ => rfl
  · intro q; rfl

/-- Witness for C2 at concrete inputs. -/
theorem c2_color2rgb_cases_witness :
    color2rgb (.str "r") = .ok (1, 0, 0) ∧
    color2rgb (.seq [1, 0, 0, 1/2]) = .ok (1, 0, 0) ∧
    color2rgb (.seq [1, 0]) = .error "Invalid color" :=
  ⟨c2_color2rgb_cases.1 "r" (1, 0, 0) (by decide),
   c2_color2rgb_cases.2.2.2.1 1 0 0 (1/2),
   c2_color2rgb_cases.2.2.2.2.1 [1, 0] (by decide) (by decide)⟩

/-- C8: `_color2alpha` returns exactly 1.0 for a string or a 3-length
numeric sequence, exactly the fourth channel for a 4-length numeric
sequence, and fails with an invalid-color error for any other shape. -/
theorem c8_color2alpha_cases :
    (∀ s, color2alpha (.str s) = .ok 1) ∧
    (∀ r g b, color2alpha (.seq [r, g, b]) = .ok 1) ∧
    (∀ r g b a, color2alpha (.seq [r, g, b, a]) = .ok a) ∧
    (∀ xs, xs.length ≠ 3 → xs.length ≠ 4 → color2alpha (.seq xs) = .error "Invalid color") ∧
    (∀ q, color2alpha (.num q) = .error "Invalid color") := by
  refine ⟨fun s => rfl, fun r g b => rfl, fun r g b a => rfl, ?_, fun q => rfl⟩
  intro xs h3 h4
  match xs, h3, h4 with
  | [], _, _ => rfl
  | [a], _, _ => rfl
  | [a, b], _, _ => rfl
  | [a, b, c], h3, _ => exact absurd rfl h3
  | [a, b, c, d], _, h4 => exact absurd rfl h4
  | a :: b :: c :: d :: e :: rest, _, _ => rfl

/-- Witness for C8 at concrete inputs. -/
theorem c8_color2alpha_cases_witness :
    color2alpha (.str "#FF0000") = .ok 1 ∧
    color2alpha (.seq [1, 0, 0, 1/2]) = .ok (1/2) ∧
    color2alpha (.seq [1, 0]) = .error "Invalid color" :=
  ⟨c8_color2alpha_cases.1 "#FF0000",
   c8_color2alpha_cases.2.2.1 1 0 0 (1/2),
   c8_color2alpha_cases.2.2.2.1 [1, 0] (by decide) (by decide)⟩

/-! Claim theorems: tile-or-trim -/

/-- C3: on a non-empty values list `y`, `_tile_or_trim` returns a list of
exactly the reference length whose entry at `i` is `y[i mod len y]`; when
the lengths agree `y` is returned unchanged, and when `y` is longer than
the reference the result is its first `len x` elements. -/
theorem c3_tile_or_trim {α : Type} (x y : List α) (hy : y ≠ []) :
    ∃ z, tileOrTrim x y = Except.ok z ∧
      z.length = x.length ∧
      (∀ i, i < x.length → z[i]? = y[i % y.length]?) ∧
      (y.length = x.length → z = y) ∧
      (x.length < y.length → z = y.take x.length) := by
  have hy0 : 0 < y.length := List.length_pos.mpr hy
  unfold tileOrTrim
  by_cases hgt : x.length > y.length
  · rw [if_pos hgt, if_neg (by omega)]
    set numrep := (x.length + y.length - 1) / y.length with hnum
    have hflen : ((List.replicate numrep y).flatten).length = numrep * y.length :=
      length_flatten_replicate y numrep
    have hge : x.length ≤ numrep * y.length := le_ceil_div_mul x.length y.length hy0
    by_cases hlt : x.length < ((List.replicate numrep y).flatten).length
    · rw [if_pos hlt]
      refine ⟨_, rfl, ?_, ?_, ?_, ?_⟩
      · rw [List.length_take]; omega
      · intro i hi
        rw [List.getElem?_take_of_lt hi]
        exact getElem?_flatten_replicate y numrep i (by omega)
      · intro h; omega
      · intro h; omega
    · rw [if_neg hlt]
      refine ⟨_, rfl, by omega, ?_, ?_, ?_⟩
      · intro i hi
        exact getElem?_flatten_replicate y numrep i (by omega)
      · intro h; omega
      · intro h; omega
  · rw [if_neg hgt]
    by_cases hxlt : x.length < y.length
    · rw [if_pos hxlt]
      refine ⟨_, rfl, ?_, ?_, ?_, ?_⟩
      · rw [List.length_take]; omega
      · intro i hi
        rw [List.getElem?_take_of_lt hi, Nat.mod_eq_of_lt (by omega)]
      · intro h; omega
      · intro _; rfl
    · rw [if_neg hxlt]
      have heq : x.length = y.length := by omega
      refine ⟨_, rfl, heq.symm, ?_, fun _ => rfl, ?_⟩
      · intro i hi
        rw [Nat.mod_eq_of_lt (by omega)]
      · intro h; omega

/-- Witness for C3 at a concrete input (tiling two values up to length 5). -/
theorem c3_tile_or_trim_witness :
    ∃ z, tileOrTrim [(1 : ℚ), 2, 3, 4, 5] [(10 : ℚ), 20] = Except.ok z ∧
      z.length = ([(1 : ℚ), 2, 3, 4, 5] : List ℚ).length ∧
      (∀ i, i < ([(1 : ℚ), 2, 3, 4, 5] : List ℚ).length →
        z[i]? = ([(10 : ℚ), 20] : List ℚ)[i % ([(10 : ℚ), 20] : List ℚ).length]?) ∧
      (([(10 : ℚ), 20] : List ℚ).length = ([(1 : ℚ), 2, 3, 4, 5] : List ℚ).length →
        z = [(10 : ℚ), 20]) ∧
      (([(1 : ℚ), 2, 3, 4, 5] : List ℚ).length < ([(10 : ℚ), 20] : List ℚ).length →
        z = ([(10 : ℚ), 20] : List ℚ).take ([(1 : ℚ), 2, 3, 4, 5] : List ℚ).length) :=
  c3_tile_or_trim [(1 : ℚ), 2, 3, 4, 5] [(10 : ℚ), 20] (by decide)

/-- C9: on a non-empty reference `x` and an empty values list, the tiling
branch of `_tile_or_trim` divides by the zero length, so the call fails
instead of returning a value. -/
theorem c9_tile_or_trim_empty {α : Type} (x : List α) (hx : x ≠ []) :
    tileOrTrim x ([] : List α) = Except.error "ZeroDivisionError" := by
  have h0 : 0 < x.length := List.length_pos.mpr hx
  unfold tileOrTrim
  rw [if_pos (by simpa using h0)]
  simp

/-- Witness for C9 at a concrete input. -/
theorem c9_tile_or_trim_empty_witness :
    tileOrTrim [(1 : ℚ), 2, 3] ([] : List ℚ) = Except.error "ZeroDivisionError" :=
  c9_tile_or_trim_empty [(1 : ℚ), 2, 3] (by decide)

/-! Claim theorems: marker normalization -/

/-- C10: the markers accessor reports Python `None` and the string "None"
as the empty string, and `assert_markers_equal` normalizes the expected
and the actual markers the same way, so its outcome is unchanged whenever
every expected entry is replaced by one with the same parsed marker (in
particular when entries drawn from None, "None" and "" are swapped). -/
theorem c10_marker_null_interchangeable :
    (parseMarker none = "" ∧ parseMarker (some "None") = "" ∧ parseMarker (some "") = "") ∧
    (∀ (c : LinePlotChecker) (i : ℕ) (l : Line), c.lines[i]? = some l →
      (l.marker = none ∨ l.marker = some "None" ∨ l.marker = some "") →
      c.markers[i]? = some "") ∧
    (∀ (c : LinePlotChecker) (m1 m2 : List (Option String)),
      List.Forall₂ (fun a b => parseMarker a = parseMarker b) m1 m2 →
      c.assertMarkersEqual m1 = c.assertMarkersEqual m2) := by
  refine ⟨⟨rfl, rfl, rfl⟩, ?_, ?_⟩
  · intro c i l hl hm
    have : c.markers[i]? = (c.lines[i]?).map (fun l => parseMarker l.marker) := by
      simp [LinePlotChecker.markers]
    rw [this, hl]
    rcases hm with h | h | h <;> simp [h, parseMarker]
  · intro c m1 m2 h
    unfold LinePlotChecker.assertMarkersEqual
    rw [map_eq_of_forall2 parseMarker m1 m2 h]

/-- Witness for C10 at concrete inputs: swapping "None" for "" in the
expected markers leaves the assertion outcome unchanged. -/
theorem c10_marker_null_interchangeable_witness :
    (⟨[⟨[], .str "r", none, none, "-"⟩], [0]⟩ :
        LinePlotChecker).assertMarkersEqual [some "None"] =
      (⟨[⟨[], .str "r", none, none, "-"⟩], [0]⟩ :
        LinePlotChecker).assertMarkersEqual [some ""] :=
  c10_marker_null_interchangeable.2.2 _ [some "None"] [some ""]
    (List.Forall₂.cons (by decide) List.Forall₂.nil)

/-! Claim theorems: scatter construction validation -/

lemma checkScatterLines_error_iff (lines : List Line) :
    (∃ e, checkScatterLines lines = Except.error e) ↔
      (∃ l ∈ lines, (l.xyData.length > 1 ∧ l.linestyle ≠ "None") ∨
        parseMarker l.marker = "") := by
  induction lines with
  | nil => simp [checkScatterLines]
  | cons l rest ih =>
    by_cases h1 : l.xyData.length > 1 ∧ l.linestyle ≠ "None"
    · simp only [checkScatterLines, if_pos h1]
      constructor
      · intro _; exact ⟨l, List.mem_cons_self l rest, Or.inl h1⟩
      · intro _; exact ⟨_, rfl⟩
    · by_cases h2 : parseMarker l.marker = ""
      · simp only [checkScatterLines, if_neg h1, if_pos h2]
        constructor
        · intro _; exact ⟨l, List.mem_cons_self l rest, Or.inr h2⟩
        · intro _; exact ⟨_, rfl⟩
      · simp only [checkScatterLines, if_neg h1, if_neg h2]
        rw [ih]
        constructor
        · rintro ⟨l2, hl2, h⟩; exact ⟨l2, List.mem_cons_of_mem l hl2, h⟩
        · rintro ⟨l2, hl2, h⟩
          rcases List.mem_cons.mp hl2 with rfl | hl2
          · rcases h with h | h
            · exact absurd h h1
            · exact absurd h h2
          · exact ⟨l2, hl2, h⟩

/-- C6: constructing a scatter checker fails exactly when the axis has no
lines and no collections, or some line has more than one data point and a
line style other than "None", or some line has an empty parsed marker;
otherwise construction succeeds and records the lines and collections. -/
theorem c6_scatter_construction (lines : List Line) (collections : List Collection) :
    ((∃ e, mkScatterPlotChecker lines collections = Except.error e) ↔
      ((lines = [] ∧ collections = []) ∨
       (∃ l ∈ lines, l.xyData.length > 1 ∧ l.linestyle ≠ "None") ∨
       (∃ l ∈ lines, parseMarker l.marker = ""))) ∧
    (¬ ((lines = [] ∧ collections = []) ∨
        (∃ l ∈ lines, l.xyData.length > 1 ∧ l.linestyle ≠ "None") ∨
        (∃ l ∈ lines, parseMarker l.marker = "")) →
      mkScatterPlotChecker lines collections = Except.ok ⟨lines, collections⟩) := by
  have hsplit : (∃ l ∈ lines, (l.xyData.length > 1 ∧ l.linestyle ≠ "None") ∨
      parseMarker l.marker = "") ↔
      ((∃ l ∈ lines, l.xyData.length > 1 ∧ l.linestyle ≠ "None") ∨
       (∃ l ∈ lines, parseMarker l.marker = "")) := by
    constructor
    · rintro ⟨l, hl, h | h⟩
      · exact Or.inl ⟨l, hl, h⟩
      · exact Or.inr ⟨l, hl, h⟩
    · rintro (⟨l, hl, h⟩ | ⟨l, hl, h⟩)
      · exact ⟨l, hl, Or.inl h⟩
      · exact ⟨l, hl, Or.inr h⟩
  by_cases hempty : lines.length = 0 ∧ collections.length = 0
  · have hl : lines = [] := List.length_eq_zero.mp hempty.1
    have hc : collections = [] := List.length_eq_zero.mp hempty.2
    constructor
    · rw [show mkScatterPlotChecker lines collections = Except.error "No data found" by
        unfold mkScatterPlotChecker; rw [if_pos hempty]]
      exact ⟨fun _ => Or.inl ⟨hl, hc⟩, fun _ => ⟨_, rfl⟩⟩
    · intro h; exact absurd (Or.inl ⟨hl, hc⟩) h
  · have hmk : mkScatterPlotChecker lines collections =
        match checkScatterLines lines with
        | .error e => .error e
        | .ok _ => .ok ⟨lines, collections⟩ := by
      unfold mkScatterPlotChecker; rw [if_neg hempty]
    have hne : ¬ (lines = [] ∧ collections = []) := by
      rintro ⟨rfl, rfl⟩; exact hempty ⟨rfl, rfl⟩
    constructor
    · cases hcheck : checkScatterLines lines with
      | error e =>
        rw [hmk, hcheck]
        have : ∃ e2, checkScatterLines lines = Except.error e2 := ⟨e, hcheck⟩
        rw [checkScatterLines_error_iff, hsplit] at this
        exact ⟨fun _ => Or.inr this, fun _ => ⟨e, rfl⟩⟩
      | ok u =>
        rw [hmk, hcheck]
        have : ¬ ∃ e2, checkScatterLines lines = Except.error e2 := by
          rintro ⟨e2, he2⟩; rw [hcheck] at he2; exact Except.noConfusion he2
        rw [checkScatterLines_error_iff, hsplit] at this
        constructor
        · rintro ⟨e, he⟩; exact absurd he (by simp)
        · rintro (h | h)
          · exact absurd h hne
          · exact absurd h this
    · intro h
      rw [not_or, not_or] at h
      obtain ⟨-, h1, h2⟩ := h
      have hgood : ¬ ∃ e, checkScatterLines lines = Except.error e := by
        rw [checkScatterLines_error_iff, hsplit]
        exact not_or.mpr ⟨h1, h2⟩
      cases hcheck : checkScatterLines lines with
      | error e => exact absurd ⟨e, hcheck⟩ hgood
      | ok u => rw [hmk, hcheck]

/-- Witness for C6: an axis with no lines and no collections fails, and a
single-point marker-only line succeeds. -/
theorem c6_scatter_construction_witness :
    (∃ e, mkScatterPlotChecker [] [] = Except.error e) ∧
    mkScatterPlotChecker [⟨[(1, 1)], .str "r", none, some "o", "None"⟩] [] =
      Except.ok ⟨[⟨[(1, 1)], .str "r", none, some "o", "None"⟩], []⟩ :=
  ⟨(c6_scatter_construction [] []).1.mpr (Or.inl ⟨rfl, rfl⟩),
   (c6_scatter_construction [⟨[(1, 1)], .str "r", none, some "o", "None"⟩] []).2
     (by decide)⟩

/-! Claim theorems: alpha fallback -/

/-- C7: the line and bar alphas accessors return the explicit alpha when
one is set and otherwise the alpha derived from the element's own (face)
color through `_color2alpha`, so an element without explicit alpha reports
the fourth channel of an RGBA color and 1.0 for an RGB or named color;
each accessor applies this rule to every element in order. -/
theorem c7_alphas_fallback :
    (∀ (l : Line) (a : ℚ), l.alpha = some a → lineAlpha l = .ok a) ∧
    (∀ l : Line, l.alpha = none → lineAlpha l = color2alpha l.color) ∧
    (∀ (l : Line) (r g b a : ℚ), l.alpha = none → l.color = .seq [r, g, b, a] →
      lineAlpha l = .ok a) ∧
    (∀ (l : Line) (r g b : ℚ), l.alpha = none → l.color = .seq [r, g, b] →
      lineAlpha l = .ok 1) ∧
    (∀ (l : Line) (s : String), l.alpha = none → l.color = .str s →
      lineAlpha l = .ok 1) ∧
    (∀ (c : LinePlotChecker) (as : List ℚ), c.alphas = .ok as →
      List.Forall₂ (fun l a => lineAlpha l = .ok a) c.lines as) ∧
    (∀ (p : Patch) (a : ℚ), p.alpha = some a → barAlpha p = .ok a) ∧
    (∀ p : Patch, p.alpha = none → barAlpha p = color2alpha p.facecolor) ∧
    (∀ (p : Patch) (r g b a : ℚ), p.alpha = none → p.facecolor = .seq [r, g, b, a] →
      barAlpha p = .ok a) ∧
    (∀ (c : BarPlotChecker) (as : List ℚ), c.alphas = .ok as →
      List.Forall₂ (fun p a => barAlpha p = .ok a) c.patches as) := by
  refine ⟨?_, ?_, ?_, ?_, ?_, ?_, ?_, ?_, ?_, ?_⟩
  · intro l a h; simp [lineAlpha, h]
  · intro l h; simp [lineAlpha, h]
  · intro l r g b a h hc; simp [lineAlpha, h, hc, color2alpha]
  · intro l r g b h hc; simp [lineAlpha, h, hc, color2alpha]
  · intro l s h hc; simp [lineAlpha, h, hc, color2alpha]
  · intro c as h; exact mapM_ok_forall2 lineAlpha c.lines as h
  · intro p a h; simp [barAlpha, h]
  · intro p h; simp [barAlpha, h]
  · intro p r g b a h hc; simp [barAlpha, h, hc, color2alpha]
  · intro c as h; exact mapM_ok_forall2 barAlpha c.patches as h

/-- Witness for C7: a line with no explicit alpha and an RGBA color
reports the fourth channel. -/
theorem c7_alphas_fallback_witness :
    lineAlpha ⟨[], .seq [1, 0, 0, 1/2], none, none, "-"⟩ = .ok (1/2) :=
  c7_alphas_fallback.2.2.1 ⟨[], .seq [1, 0, 0, 1/2], none, none, "-"⟩ 1 0 0 (1/2)
    rfl rfl

/-! Claim theorems: the per-line assertion helper -/

lemma find?_range_eq_some {p : ℕ → Bool} :
    ∀ {n i : ℕ}, (List.range n).find? p = some i ↔
      i < n ∧ p i = true ∧ ∀ j < i, p j = false := by
  intro n
  induction n with
  | zero =>
    intro i
    simp [List.range_zero]
  | succ n ih =>
    intro i
    rw [List.range_succ, List.find?_append]
    cases hfind : (List.range n).find? p with
    | some j =>
      obtain ⟨hj, hpj, hminj⟩ := ih.mp hfind
      simp only [Option.or_some, Option.some.injEq]
      constructor
      · rintro rfl
        exact ⟨by omega, hpj, hminj⟩
      · rintro ⟨hi, hpi, hmini⟩
        rcases Nat.lt_trichotomy i j with hlt | heq | hgt
        · exact absurd hpi (by simp [hminj i hlt])
        · omega
        · exact absurd hpj (by simp [hmini j hgt])
    | none =>
      have hall := List.find?_eq_none.mp hfind
      simp only [Option.none_or]
      by_cases hpn : p n
      · rw [List.find?_cons_of_pos _ hpn]
        simp only [Option.some.injEq]
        constructor
        · rintro rfl
          refine ⟨by omega, hpn, ?_⟩
          intro j hj
          have := hall j (List.mem_range.mpr hj)
          simpa using this
        · rintro ⟨hi, hpi, -⟩
          by_cases hin : i < n
          · exact absurd hpi (hall i (List.mem_range.mpr hin))
          · omega
      · rw [List.find?_cons_of_neg _ hpn, List.find?_nil]
        simp only [false_iff, reduceCtorEq]
        rintro ⟨hi, hpi, -⟩
        by_cases hin : i < n
        · exact absurd hpi (hall i (List.mem_range.mpr hin))
        · have : i = n := by omega
          rw [this] at hpi
          exact hpn hpi

lemma lineAssertEqual_pass_iff {α : Type} [DecidableEq α] (attr : String)
    (expected actual : List α) (perm : List ℕ)
    (hlen : expected.length = actual.length) :
    lineAssertEqual attr expected actual perm = .pass ↔
      ∀ i < expected.length, actual[i]? = perm[i]?.bind (fun p => expected[p]?) := by
  unfold lineAssertEqual
  rw [if_neg (by omega)]
  cases hfind : (List.range expected.length).find?
      (fun i => decide (actual[i]? ≠ perm[i]?.bind (fun p => expected[p]?))) with
  | some i =>
    obtain ⟨hi, hp, -⟩ := find?_range_eq_some.mp hfind
    rw [decide_eq_true_iff] at hp
    constructor
    · intro h
      exact AssertOutcome.noConfusion h
    · intro h
      exact absurd (h i hi) hp
  | none =>
    constructor
    · intro _ i hi
      have := List.find?_eq_none.mp hfind i (List.mem_range.mpr hi)
      simpa using this
    · intro _
      rfl

lemma lineAssertEqual_valueMismatch_spec {α : Type} [DecidableEq α] (attr : String)
    (expected actual : List α) (perm : List ℕ) (i : ℕ) (ev av : Option α) :
    lineAssertEqual attr expected actual perm = .valueMismatch attr i ev av →
      expected.length = actual.length ∧ i < expected.length ∧
      ev = perm[i]?.bind (fun p => expected[p]?) ∧ av = actual[i]? ∧ av ≠ ev ∧
      ∀ j < i, actual[j]? = perm[j]?.bind (fun p => expected[p]?) := by
  unfold lineAssertEqual
  by_cases hlen : expected.length ≠ actual.length
  · rw [if_pos hlen]
    intro h
    exact AssertOutcome.noConfusion h
  · rw [if_neg hlen]
    push_neg at hlen
    cases hfind : (List.range expected.length).find?
        (fun k => decide (actual[k]? ≠ perm[k]?.bind (fun p => expected[p]?))) with
    | some k =>
      intro h
      rw [show (match some k with
          | some i => AssertOutcome.valueMismatch attr i
              (perm[i]?.bind fun p => expected[p]?) actual[i]?
          | none => AssertOutcome.pass) =
          AssertOutcome.valueMismatch attr k (perm[k]?.bind fun p => expected[p]?)
            actual[k]? from rfl] at h
      rw [AssertOutcome.valueMismatch.injEq] at h
      obtain ⟨-, hk, hev, hav⟩ := h
      subst hk
      obtain ⟨hklt, hp, hmin⟩ := find?_range_eq_some.mp hfind
      rw [decide_eq_true_iff] at hp
      refine ⟨hlen, hklt, hev.symm, hav.symm, ?_, ?_⟩
      · rw [hav, hev] at hp
        exact hp
      · intro j hj
        have := hmin j hj
        simpa using this
    | none =>
      intro h
      exact AssertOutcome.noConfusion h

/-- C4: the per-line assertion first checks the lengths and on mismatch
reports the attribute name and both lengths; otherwise it compares
`actual[i]` against `expected[perm[i]]` index by index, reporting the
attribute, the first mismatching index and both values there, and passes
exactly when every index matches; the permutation used by a freshly
constructed checker is the identity. -/
theorem c4_assert_equal {α : Type} [DecidableEq α] (attr : String)
    (expected actual : List α) (perm : List ℕ) :
    (expected.length ≠ actual.length →
      lineAssertEqual attr expected actual perm =
        .lengthMismatch attr actual.length expected.length) ∧
    (expected.length = actual.length →
      (lineAssertEqual attr expected actual perm = .pass ↔
        ∀ i < expected.length, actual[i]? = perm[i]?.bind (fun p => expected[p]?))) ∧
    (∀ i ev av, lineAssertEqual attr expected actual perm = .valueMismatch attr i ev av →
      i < expected.length ∧ ev = perm[i]?.bind (fun p => expected[p]?) ∧
      av = actual[i]? ∧ av ≠ ev ∧
      ∀ j < i, actual[j]? = perm[j]?.bind (fun p => expected[p]?)) ∧
    (∀ (lines : List Line) (c : LinePlotChecker), mkLinePlotChecker lines = .ok c →
      c.perm = List.range lines.length ∧ ∀ i < lines.length, c.perm[i]? = some i) := by
  refine ⟨?_, ?_, ?_, ?_⟩
  · intro hlen
    unfold lineAssertEqual
    rw [if_pos hlen]
  · intro hlen
    exact lineAssertEqual_pass_iff attr expected actual perm hlen
  · intro i ev av h
    exact (lineAssertEqual_valueMismatch_spec attr expected actual perm i ev av h).2
  · intro lines c h
    unfold mkLinePlotChecker at h
    by_cases h0 : lines.length = 0
    · rw [if_pos h0] at h
      exact Except.noConfusion h
    · rw [if_neg h0] at h
      injection h with h
      have hperm : c.perm = List.range lines.length := by rw [← h]
      refine ⟨hperm, ?_⟩
      intro i hi
      rw [hperm]
      exact List.getElem?_range hi

/-- Witness for C4: a matching comparison passes under the identity
permutation. -/
theorem c4_assert_equal_witness :
    lineAssertEqual "x_data" [(1 : ℚ), 2] [(1 : ℚ), 2] [0, 1] = .pass :=
  ((c4_assert_equal "x_data" [(1 : ℚ), 2] [(1 : ℚ), 2] [0, 1]).2.1 (by decide)).mpr
    (by decide)

/-! Claim theorems: bar canonicalization -/

/-- C5 counterexample: two bars of widths 10 and 1 drawn right-to-left
are sorted by x position, yet their centers `[5, 3/2]` are not in
ascending order, refuting the claim that centers are ascending for bars of
differing widths. -/
theorem c5_centers_counterexample :
    ∃ c, mkBarPlotChecker
        [⟨1, 0, 1, 1, .str "r", none⟩, ⟨0, 0, 10, 1, .str "b", none⟩] = Except.ok c ∧
      c.centers = [5, 3/2] ∧
      ¬ List.Sorted (· ≤ ·) c.centers := by
  refine ⟨⟨[⟨0, 0, 10, 1, .str "b", none⟩, ⟨1, 0, 1, 1, .str "r", none⟩]⟩, ?_, ?_, ?_⟩
  · unfold mkBarPlotChecker
    norm_num [List.insertionSort, List.orderedInsert, patchLeX]
  · norm_num [BarPlotChecker.centers]
  · norm_num [BarPlotChecker.centers, List.Sorted, List.pairwise_cons]

/-- C5 (amended): the bars are canonicalized by sorting on their x
position at construction, before any attribute is extracted; the centers
accessor reports `x + width/2` per bar in that x-sorted order, and the
centers are ascending whenever all bars share one width, regardless of
draw order. -/
theorem c5_bars_sorted_by_x (ps : List Patch) (c : BarPlotChecker)
    (h : mkBarPlotChecker ps = Except.ok c) :
    c.patches.Perm ps ∧
    List.Sorted patchLeX c.patches ∧
    c.centers = c.patches.map (fun p => p.x + p.width / 2) ∧
    ∀ w, (∀ p ∈ ps, p.width = w) → List.Sorted (· ≤ ·) c.centers := by
  have hc : c.patches = ps.insertionSort patchLeX := by
    simp only [mkBarPlotChecker] at h
    split at h
    · exact Except.noConfusion h
    · injection h with h
      rw [← h]
  have hperm : c.patches.Perm ps := by
    rw [hc]
    exact List.perm_insertionSort patchLeX ps
  have hsorted : List.Sorted patchLeX c.patches := by
    rw [hc]
    exact List.sorted_insertionSort patchLeX ps
  refine ⟨hperm, hsorted, rfl, ?_⟩
  intro w hw
  have hwc : ∀ p ∈ c.patches, p.width = w := by
    intro p hp
    exact hw p (hperm.subset hp)
  unfold BarPlotChecker.centers List.Sorted
  rw [List.pairwise_map]
  refine List.Pairwise.imp_of_mem ?_ hsorted
  intro a b ha hb hab
  rw [hwc a ha, hwc b hb]
  exact add_le_add_right hab _

/-- Witness for C5's amended statement: two equal-width bars drawn out of
order come back sorted with ascending centers. -/
theorem c5_bars_sorted_by_x_witness :
    (⟨[⟨0, 0, 1, 1, .str "b", none⟩, ⟨2, 0, 1, 1, .str "r", none⟩]⟩ :
        BarPlotChecker).patches.Perm
      [⟨2, 0, 1, 1, .str "r", none⟩, ⟨0, 0, 1, 1, .str "b", none⟩] ∧
    List.Sorted patchLeX (⟨[⟨0, 0, 1, 1, .str "b", none⟩, ⟨2, 0, 1, 1, .str "r", none⟩]⟩ :
        BarPlotChecker).patches ∧
    (⟨[⟨0, 0, 1, 1, .str "b", none⟩, ⟨2, 0, 1, 1, .str "r", none⟩]⟩ :
        BarPlotChecker).centers =
      (⟨[⟨0, 0, 1, 1, .str "b", none⟩, ⟨2, 0, 1, 1, .str "r", none⟩]⟩ :
        BarPlotChecker).patches.map (fun p => p.x + p.width / 2) ∧
    ∀ w, (∀ p ∈ ([⟨2, 0, 1, 1, .str "r", none⟩, ⟨0, 0, 1, 1, .str "b", none⟩] :
        List Patch), p.width = w) →
      List.Sorted (· ≤ ·) (⟨[⟨0, 0, 1, 1, .str "b", none⟩, ⟨2, 0, 1, 1, .str "r", none⟩]⟩ :
        BarPlotChecker).centers :=
  c5_bars_sorted_by_x
    [⟨2, 0, 1, 1, .str "r", none⟩, ⟨0, 0, 1, 1, .str "b", none⟩]
    ⟨[⟨0, 0, 1, 1, .str "b", none⟩, ⟨2, 0, 1, 1, .str "r", none⟩]⟩
    (by unfold mkBarPlotChecker
        norm_num [List.insertionSort, List.orderedInsert, patchLeX])

/-! Claim theorems: permutation matching -/

lemma lexPermsFuel_nil (n : ℕ) : lexPermsFuel n [] = [[]] := by
  cases n <;> rfl

lemma mem_lexPermsFuel :
    ∀ (n : ℕ) (xs l : List ℕ), xs.length ≤ n →
      (l ∈ lexPermsFuel n xs ↔ l.Perm xs) := by
  intro n
  induction n with
  | zero =>
    intro xs l h
    have hxs : xs = [] := List.length_eq_zero.mp (by omega)
    subst hxs
    rw [lexPermsFuel_nil]
    simp [List.perm_nil]
  | succ n ih =>
    intro xs l h
    cases xs with
    | nil =>
      rw [lexPermsFuel_nil]
      simp [List.perm_nil]
    | cons x rest =>
      show l ∈ (x :: rest).flatMap _ ↔ _
      rw [List.mem_flatMap]
      constructor
      · rintro ⟨y, hy, hl⟩
        rw [List.mem_map] at hl
        obtain ⟨q, hq, rfl⟩ := hl
        have hlen : ((x :: rest).erase y).length ≤ n := by
          rw [List.length_erase_of_mem hy]
          simp only [List.length_cons] at h ⊢
          omega
        have hqperm : q.Perm ((x :: rest).erase y) := (ih _ q hlen).mp hq
        exact (hqperm.cons y).trans (List.perm_cons_erase hy).symm
      · intro hl
        have hne : ∃ y lrest, l = y :: lrest := by
          cases l with
          | nil => have := hl.length_eq; simp at this
          | cons a b => exact ⟨a, b, rfl⟩
        obtain ⟨y, lrest, rfl⟩ := hne
        have hy : y ∈ x :: rest := hl.subset (List.mem_cons_self y lrest)
        refine ⟨y, hy, ?_⟩
        rw [List.mem_map]
        refine ⟨lrest, ?_, rfl⟩
        have hlen : ((x :: rest).erase y).length ≤ n := by
          rw [List.length_erase_of_mem hy]
          simp only [List.length_cons] at h ⊢
          omega
        rw [ih _ lrest hlen]
        exact (hl.trans (List.perm_cons_erase hy)).cons_inv

lemma pairwise_lexPermsFuel :
    ∀ (n : ℕ) (xs : List ℕ), xs.length ≤ n → xs.Pairwise (· < ·) →
      (lexPermsFuel n xs).Pairwise (List.Lex (· < ·)) := by
  intro n
  induction n with
  | zero =>
    intro xs h _
    have hxs : xs = [] := List.length_eq_zero.mp (by omega)
    subst hxs
    rw [lexPermsFuel_nil]
    simp
  | succ n ih =>
    intro xs h hp
    cases xs with
    | nil =>
      rw [lexPermsFuel_nil]
      simp
    | cons x rest =>
      show ((x :: rest).flatMap _).Pairwise _
      rw [List.pairwise_flatMap]
      constructor
      · intro y hy
        rw [List.pairwise_map]
        have hlen : ((x :: rest).erase y).length ≤ n := by
          rw [List.length_erase_of_mem hy]
          simp only [List.length_cons] at h ⊢
          omega
        have hsub : ((x :: rest).erase y).Pairwise (· < ·) :=
          List.Pairwise.sublist (List.erase_sublist y (x :: rest)) hp
        exact (ih _ hlen hsub).imp (fun hqq => List.Lex.cons hqq)
      · refine hp.imp_of_mem ?_
        intro a b ha hb hab
        intro p1 hp1 p2 hp2
        rw [List.mem_map] at hp1 hp2
        obtain ⟨q1, -, rfl⟩ := hp1
        obtain ⟨q2, -, rfl⟩ := hp2
        exact List.Lex.rel hab

lemma mem_lexPerms_range (n : ℕ) (q : List ℕ) :
    q ∈ lexPerms (List.range n) ↔ q.Perm (List.range n) := by
  unfold lexPerms
  exact mem_lexPermsFuel (List.range n).length (List.range n) q le_rfl

lemma pairwise_lexPerms_range (n : ℕ) :
    (lexPerms (List.range n)).Pairwise (List.Lex (· < ·)) := by
  unfold lexPerms
  exact pairwise_lexPermsFuel (List.range n).length (List.range n) le_rfl
    (List.pairwise_lt_range n)

/-- C1: `find_permutation` enumerates the permutations of the expected
indices in lexicographic order (the enumerated list holds exactly the
permutations of `range n` and is pairwise lexicographically increasing),
succeeds with the first permutation `p` under which every actual value at
index `i` equals the expected value at index `p[i]`, fails when the
lengths differ or when no permutation makes all values equal, and at the
checker level first normalizes expected colors to RGB triples and stores
the found permutation as the active one. -/
theorem c1_find_permutation {α : Type} [DecidableEq α] (attr : String)
    (expected actual : List α) :
    (∀ q, q ∈ lexPerms (List.range expected.length) ↔
      q.Perm (List.range expected.length)) ∧
    (lexPerms (List.range expected.length)).Pairwise (List.Lex (· < ·)) ∧
    (expected.length ≠ actual.length →
      findPermutationCore attr expected actual =
        .error "Invalid length for attribute") ∧
    (∀ p, findPermutationCore attr expected actual = .ok p →
      expected.length = actual.length ∧
      p.Perm (List.range expected.length) ∧
      matchesPerm expected actual p ∧
      ∀ q, q.Perm (List.range expected.length) → List.Lex (· < ·) q p →
        ¬ matchesPerm expected actual q) ∧
    (expected.length = actual.length →
      (findPermutationCore attr expected actual =
          .error "Could not match plotted values to expected values" ↔
        ∀ q, q.Perm (List.range expected.length) → ¬ matchesPerm expected actual q)) ∧
    (∀ (c c2 : LinePlotChecker) (vals : List PyColor),
      c.findPermColors vals = .ok c2 →
      ∃ exp act, vals.mapM color2rgb = .ok exp ∧ c.colorsAttr = .ok act ∧
        findPermutationCore "colors" exp act = .ok c2.perm ∧
        c2.lines = c.lines) := by
  refine ⟨mem_lexPerms_range expected.length, pairwise_lexPerms_range expected.length,
    ?_, ?_, ?_, ?_⟩
  · intro hlen
    unfold findPermutationCore
    rw [if_pos hlen]
  · intro p hp
    unfold findPermutationCore at hp
    by_cases hlen : expected.length ≠ actual.length
    · rw [if_pos hlen] at hp
      exact Except.noConfusion hp
    · push_neg at hlen
      rw [if_neg (by omega)] at hp
      cases hfind : (lexPerms (List.range expected.length)).find?
          (fun q => decide (lineAssertEqual attr expected actual q = .pass)) with
      | none =>
        rw [hfind] at hp
        exact Except.noConfusion hp
      | some p2 =>
        rw [hfind] at hp
        injection hp with hp2
        subst hp2
        obtain ⟨hpass, front, back, hsplit, hfail⟩ := List.find?_eq_some.mp hfind
        rw [decide_eq_true_iff] at hpass
        have hmatches : matchesPerm expected actual p2 :=
          (lineAssertEqual_pass_iff attr expected actual p2 hlen).mp hpass
        have hmem : p2 ∈ lexPerms (List.range expected.length) :=
          List.mem_of_find?_eq_some hfind
        refine ⟨hlen, (mem_lexPerms_range _ p2).mp hmem, hmatches, ?_⟩
        intro q hqperm hlex hqmatches
        have hqmem : q ∈ lexPerms (List.range expected.length) :=
          (mem_lexPerms_range _ q).mpr hqperm
        rw [hsplit] at hqmem
        rcases List.mem_append.mp hqmem with hq | hq
        · have hqfail := hfail q hq
          have hqpass : lineAssertEqual attr expected actual q = .pass :=
            (lineAssertEqual_pass_iff attr expected actual q hlen).mpr hqmatches
          rw [hqpass] at hqfail
          simp at hqfail
        · rcases List.mem_cons.mp hq with rfl | hq
          · exact asymm_of (List.Lex (· < ·)) hlex hlex
          · have hpw := pairwise_lexPerms_range expected.length
            rw [hsplit] at hpw
            have hpbs := (List.pairwise_append.mp hpw).2.1
            have hplex : List.Lex (· < ·) p2 q := (List.pairwise_cons.mp hpbs).1 q hq
            exact asymm_of (List.Lex (· < ·)) hplex hlex
  · intro hlen
    unfold findPermutationCore
    rw [if_neg (by omega)]
    cases hfind : (lexPerms (List.range expected.length)).find?
        (fun q => decide (lineAssertEqual attr expected actual q = .pass)) with
    | some p =>
      obtain ⟨hpass, -⟩ := List.find?_eq_some.mp hfind
      rw [decide_eq_true_iff] at hpass
      have hmem : p ∈ lexPerms (List.range expected.length) :=
        List.mem_of_find?_eq_some hfind
      constructor
      · intro h
        exact Except.noConfusion h
      · intro h
        exact absurd ((lineAssertEqual_pass_iff attr expected actual p hlen).mp hpass)
          (h p ((mem_lexPerms_range _ p).mp hmem))
    | none =>
      have hall := List.find?_eq_none.mp hfind
      constructor
      · intro _ q hqperm hqmatches
        have hqmem : q ∈ lexPerms (List.range expected.length) :=
          (mem_lexPerms_range _ q).mpr hqperm
        have := hall q hqmem
        rw [(lineAssertEqual_pass_iff attr expected actual q hlen).mpr hqmatches] at this
        simp at this
      · intro _
        rfl
  · intro c c2 vals h
    unfold LinePlotChecker.findPermColors at h
    cases hexp : vals.mapM color2rgb with
    | error e =>
      rw [hexp] at h
      exact Except.noConfusion h
    | ok exp =>
      rw [hexp] at h
      cases hact : c.colorsAttr with
      | error e =>
        rw [hact] at h
        exact Except.noConfusion h
      | ok act =>
        rw [hact] at h
        have h2 : (match findPermutationCore "colors" exp act with
            | Except.error e => Except.error e
            | Except.ok p => Except.ok { lines := c.lines, perm := p }) =
            Except.ok c2 := h
        cases hcore : findPermutationCore "colors" exp act with
        | error e =>
          rw [hcore] at h2
          exact Except.noConfusion h2
        | ok p =>
          rw [hcore] at h2
          injection h2 with h2
          refine ⟨exp, act, rfl, rfl, ?_, ?_⟩
          · rw [← h2]
            exact hcore
          · rw [← h2]

/-- Witness for C1: for expected values `[3, 7]` plotted as `[7, 3]`, the
first (and only) matching permutation is `[1, 0]`. -/
theorem c1_find_permutation_witness :
    ([3, 7] : List ℕ).length = ([7, 3] : List ℕ).length ∧
    List.Perm [1, 0] (List.range ([3, 7] : List ℕ).length) ∧
    matchesPerm ([3, 7] : List ℕ) [7, 3] [1, 0] ∧
    ∀ q, q.Perm (List.range ([3, 7] : List ℕ).length) →
      List.Lex (· < ·) q [1, 0] → ¬ matchesPerm ([3, 7] : List ℕ) [7, 3] q :=
  (c1_find_permutation "colors" ([3, 7] : List ℕ) [7, 3]).2.2.2.1 [1, 0] (by rfl)

end Plotchecker
